import Mathlib

/-!
# Verification of the ASE GUI `View` engine (`ase/gui/view.py`)

This file embeds the projection / bonding / rendering / interaction core of
the `View` class shallowly in Lean and proves properties stated in its
specification.  Machine floats are modelled by exact rationals; numpy array
code is modelled by lists and explicit indices.
-/

open scoped Matrix

namespace AseView

/-! ## Bond graph (`View.bind`, view.py lines 147-180)

`bind` asks a neighbor list for the undirected neighbor pairs of the current
frame, stores every pair once forward (atom `a`, neighbor `b`, periodic
offset), and then appends, for every forward pair whose offset triplet is
non-zero (`self.bonds[:n2, 2:].any(1)`), its periodic mirror: endpoints
swapped, offset negated (lines 177-180).  The forward pairs come from the
external `NeighborList` (no self-interaction, each undirected pair reported
once), modelled here as an arbitrary duplicate-free input list. -/

/-- A stored bond: ordered atom pair plus periodic-offset triplet, one row of
the `(nb, 5)` integer array `self.bonds`. -/
structure Bond where
  a : ℕ
  b : ℕ
  ox : ℤ
  oy : ℤ
  oz : ℤ
deriving DecidableEq, Repr

/-- `bonds[:, 2:].any(1)` for a single row: the periodic offset is non-zero. -/
def Bond.offNonzero (p : Bond) : Bool :=
  !decide (p.ox = 0 ∧ p.oy = 0 ∧ p.oz = 0)

/-- The periodic mirror of a bond: endpoints swapped, offset negated
(view.py lines 178-180). -/
def Bond.mirror (p : Bond) : Bond :=
  ⟨p.b, p.a, -p.ox, -p.oy, -p.oz⟩

/-- `View.bind`: the forward pairs followed by the mirrors of every forward
pair with non-zero offset (view.py lines 165-180). -/
def bindBonds (pairs : List Bond) : List Bond :=
  pairs ++ (pairs.filter Bond.offNonzero).map Bond.mirror

theorem Bond.mirror_mirror (p : Bond) : p.mirror.mirror = p := by
  cases p; simp [Bond.mirror]

theorem Bond.offNonzero_mirror (p : Bond) :
    p.mirror.offNonzero = p.offNonzero := by
  cases p
  simp only [Bond.mirror, Bond.offNonzero]
  congr 1
  rw [decide_eq_decide]
  simp [neg_eq_zero]


/-- **C1.** Every stored bond whose periodic-offset triplet is non-zero has a
mirrored counterpart (atom indices swapped, offset negated) in the bond set
built by `View.bind`, and—given that the neighbor list reports each pair only
once—no bond with zero offset is stored twice (offset is part of bond
identity, so non-periodic bonds appear exactly once). -/
theorem c1_bond_mirror_and_no_duplication (pairs : List Bond)
    (hnd : pairs.Nodup) :
    (∀ p ∈ bindBonds pairs, p.offNonzero = true →
        p.mirror ∈ bindBonds pairs) ∧
    (∀ p : Bond, p.offNonzero = false → (bindBonds pairs).count p ≤ 1) := by
  constructor
  · intro p hp hnz
    rcases List.mem_append.1 hp with hfwd | hmir
    · exact List.mem_append_right _
        (List.mem_map.2 ⟨p, List.mem_filter.2 ⟨hfwd, hnz⟩, rfl⟩)
    · rcases List.mem_map.1 hmir with ⟨q, hq, rfl⟩
      rw [Bond.mirror_mirror]
      exact List.mem_append_left _ (List.mem_filter.1 hq).1
  · intro p hz
    have hnotmem : p ∉ (pairs.filter Bond.offNonzero).map Bond.mirror := by
      intro hmem
      rcases List.mem_map.1 hmem with ⟨q, hq, rfl⟩
      have := (List.mem_filter.1 hq).2
      rw [Bond.offNonzero_mirror] at hz
      simp [this] at hz
    have h2 : ((pairs.filter Bond.offNonzero).map Bond.mirror).count p = 0 :=
      List.count_eq_zero.2 hnotmem
    calc (bindBonds pairs).count p
        = pairs.count p +
            ((pairs.filter Bond.offNonzero).map Bond.mirror).count p := by
          simp [bindBonds, List.count_append]
      _ = pairs.count p := by rw [h2, Nat.add_zero]
      _ ≤ 1 := List.nodup_iff_count_le_one.1 hnd p

/-- Witness for C1: a concrete two-bond input (one intra-cell bond, one
periodic bond) satisfying the duplicate-free hypothesis. -/
theorem c1_witness :
    [(⟨0, 1, 0, 0, 0⟩ : Bond), ⟨0, 2, 1, 0, 0⟩].Nodup ∧
    Bond.mirror ⟨0, 2, 1, 0, 0⟩ ∈
      bindBonds [⟨0, 1, 0, 0, 0⟩, ⟨0, 2, 1, 0, 0⟩] ∧
    (bindBonds [⟨0, 1, 0, 0, 0⟩, ⟨0, 2, 1, 0, 0⟩]).count ⟨0, 1, 0, 0, 0⟩ ≤ 1 :=
  ⟨by decide,
   (c1_bond_mirror_and_no_duplication _ (by decide)).1 _ (by decide)
     (by decide),
   (c1_bond_mirror_and_no_duplication _ (by decide)).2 _ (by decide)⟩

/-! ## Cell grid (`View.make_box`, view.py lines 117-145)

`make_box` computes, for each of the 3 lattice vectors, a tick count
`n = max(2, int(d / 0.3))` where `d = sqrt(v·v)` (lines 126-127), and fills
arrays `B1`/`B2` of shape `(2, 2, n₁+n₂+n₃, 3)` (lines 129-143) that are
flattened to `4·(n₁+n₂+n₃)` start/end segment pairs. -/

/-- Ticks per lattice vector, `n = max(2, int(d / 0.3))` (line 127); lengths
are non-negative so Python's truncating `int()` is the floor. -/
def tickCount (d : ℚ) : ℕ :=
  max 2 (⌊d / (3 / 10)⌋.toNat)

/-- Total number of cell-grid segments emitted by `make_box` for lattice
vectors of lengths `d 0`, `d 1`, `d 2`: four (the 2×2 fractional-offset
combinations of the other two axes) times the summed tick counts. -/
def boxSegmentCount (d : Fin 3 → ℚ) : ℕ :=
  4 * (tickCount (d 0) + tickCount (d 1) + tickCount (d 2))

/-- **C6 counterexample.** For a cubic cell of side 1.0 (every lattice-vector
length exactly 1) the builder emits `4·3·max(2, ⌊1/0.3⌋) = 36` segments, not
the claimed `4·3·max(2, ⌈1/0.3⌉) = 48`: `int(1/0.3)` truncates to 3 while the
claim's `ceil(1/0.3)` is 4. -/
theorem c6_counterexample :
    boxSegmentCount (fun _ => 1) = 36 ∧
    4 * 3 * max 2 (⌈(1 : ℚ) / (3 / 10)⌉.toNat) = 48 ∧
    boxSegmentCount (fun _ => 1) ≠
      4 * 3 * max 2 (⌈(1 : ℚ) / (3 / 10)⌉.toNat) := by
  have hceil : ⌈(1 : ℚ) / (3 / 10)⌉ = 4 := by
    rw [show ((1 : ℚ) / (3 / 10)) = 10 / 3 by norm_num, Int.ceil_eq_iff]
    norm_num
  have hwhole : boxSegmentCount (fun _ => 1) = 36 := by
    norm_num [boxSegmentCount, tickCount]
    decide
  have hclaim : 4 * 3 * max 2 (⌈(1 : ℚ) / (3 / 10)⌉.toNat) = 48 := by
    rw [hceil]
    decide
  exact ⟨hwhole, hclaim, by rw [hwhole, hclaim]; decide⟩

/-- **C6 (amended).** For a cubic cell with lattice-vector length 1.0 and
step length 0.3, the cell-grid builder emits exactly
`4 × 3 × max(2, ⌊1/0.3⌋) = 36` grid segments (floor — Python's truncating
`int()` — rather than the claimed ceiling).  The lengths are characterised as
in the code, `d = sqrt(v·v)`: `d ≥ 0` with `d² = 1`. -/
theorem c6_cubic_segment_count (d : Fin 3 → ℚ)
    (hpos : ∀ c, 0 ≤ d c) (hsq : ∀ c, d c ^ 2 = 1) :
    boxSegmentCount d = 4 * 3 * max 2 (⌊(1 : ℚ) / (3 / 10)⌋.toNat) := by
  have h1 : ∀ c, d c = 1 := by
    intro c
    have h2 : (d c - 1) * (d c + 1) = 0 := by
      have := hsq c; nlinarith
    rcases mul_eq_zero.1 h2 with h | h
    · linarith
    · linarith [hpos c]
  simp only [boxSegmentCount, tickCount, h1]
  norm_num
  decide

/-- Witness for C6 at the exact unit lengths. -/
theorem c6_witness :
    boxSegmentCount (fun _ => 1) =
      4 * 3 * max 2 (⌊(1 : ℚ) / (3 / 10)⌋.toNat) :=
  c6_cubic_segment_count (fun _ => 1) (fun _ => zero_le_one)
    (fun _ => one_pow 2)

/-! ## Atom radius and `my_arc` (view.py lines 440-494 and 522-531)

`draw` computes the per-atom screen radius `r` as `images.r * scale`, or
`images.r * (0.65 * scale)` when bond display is enabled (lines 522-525),
and passes `A = (P - r).round()` and `d = (2*r).round()` to the drawing
code.  `my_arc` rounds the three semi-axes of an anisotropic atom to
integers; when they agree it draws the plain circle `draw_arc(..., A[j,0],
A[j,1], d[j], d[j], 0, 23040)` without ever consulting the orientation
quaternion (lines 442-446, 489-494). -/

/-- numpy `.round()`: round half to even, as used by `.round().astype(int)`. -/
def npRound (q : ℚ) : ℤ :=
  if Int.fract q < 1 / 2 then ⌊q⌋
  else if 1 / 2 < Int.fract q then ⌊q⌋ + 1
  else if ⌊q⌋ % 2 = 0 then ⌊q⌋ else ⌊q⌋ + 1

/-- Screen radius of an atom (view.py lines 522-525): world radius times
scale, times 0.65 when bond display is enabled. -/
def screenRadius (bondsShown : Bool) (scale rA : ℚ) : ℚ :=
  if bondsShown then rA * (13 / 20 * scale) else rA * scale

/-- A draw primitive emitted by `my_arc`. -/
inductive Prim where
  | arc (x y w h : ℤ)
  | polygon (pts : List (ℤ × ℤ))
deriving DecidableEq, Repr

/-- `View.my_arc` for an atom with anisotropic shape data: the semi-axes
`(sx, sy, sz)` are rounded to integers (lines 443-445); when all three agree
the atom is drawn as a circle with bounding square of side
`round(2·r_screen)` at corner `round(P − r_screen)`, the quaternion unused.
The non-circular branch builds a 16-point polygon from an
eigen-decomposition of the projected ellipsoid (lines 449-488); it is not
reached for equal semi-axes and is kept abstract here as `ellipsePoly q`. -/
def myArc {α : Type} (q : α) (ellipsePoly : α → Prim)
    (sx sy sz px py : ℚ) (bondsShown : Bool) (scale rA : ℚ) : Prim :=
  let r := screenRadius bondsShown scale rA
  if npRound sx = npRound sy ∧ npRound sy = npRound sz then
    Prim.arc (npRound (px - r)) (npRound (py - r))
      (npRound (2 * r)) (npRound (2 * r))
  else ellipsePoly q

/-- **C7 (amended).** For every atom whose anisotropic shape has three equal
(rounded) semi-axes, the renderer draws a circle — independent of the atom's
orientation quaternion — whose screen radius equals the atom's world radius
times the camera scale, and 0.65 times that radius (not half) when bond
display is enabled. -/
theorem c7_equal_axes_circle {α : Type} (q q' : α) (ellipsePoly : α → Prim)
    (sx sy sz px py scale rA : ℚ) (bondsShown : Bool)
    (hx : npRound sx = npRound sy) (hy : npRound sy = npRound sz) :
    myArc q ellipsePoly sx sy sz px py bondsShown scale rA =
      Prim.arc (npRound (px - screenRadius bondsShown scale rA))
        (npRound (py - screenRadius bondsShown scale rA))
        (npRound (2 * screenRadius bondsShown scale rA))
        (npRound (2 * screenRadius bondsShown scale rA)) ∧
    myArc q ellipsePoly sx sy sz px py bondsShown scale rA =
      myArc q' ellipsePoly sx sy sz px py bondsShown scale rA ∧
    screenRadius false scale rA = rA * scale ∧
    screenRadius true scale rA = 13 / 20 * (rA * scale) := by
  refine ⟨?_, ?_, ?_, ?_⟩
  · simp [myArc, hx, hy]
  · simp [myArc, hx, hy]
  · simp [screenRadius]
  · simp [screenRadius]; ring

/-- Witness for C7: a concrete spherical atom (semi-axes all 2). -/
theorem c7_witness :
    myArc (0 : ℕ) (fun _ => Prim.polygon []) 2 2 2 5 5 false 1 1 =
      Prim.arc (npRound (5 - screenRadius false 1 1))
        (npRound (5 - screenRadius false 1 1))
        (npRound (2 * screenRadius false 1 1))
        (npRound (2 * screenRadius false 1 1)) ∧
    myArc (0 : ℕ) (fun _ => Prim.polygon []) 2 2 2 5 5 false 1 1 =
      myArc (1 : ℕ) (fun _ => Prim.polygon []) 2 2 2 5 5 false 1 1 ∧
    screenRadius false 1 1 = 1 * 1 ∧
    screenRadius true 1 1 = 13 / 20 * (1 * 1) :=
  c7_equal_axes_circle 0 1 (fun _ => Prim.polygon []) 2 2 2 5 5 1 1 false
    rfl rfl

/-- **C7 counterexample.** With bond display enabled the drawn screen radius
is 0.65 × (world radius × scale), not half of it: at world radius 1 and
scale 1 the code uses radius 13/20 ≠ 1/2. -/
theorem c7_counterexample :
    screenRadius true 1 1 = 13 / 20 ∧
    screenRadius true 1 1 ≠ (1 / 2) * screenRadius false 1 1 := by
  constructor
  · norm_num [screenRadius]
  · norm_num [screenRadius]

/-! ## Orientation from selected atoms (`View.toggle_orient_mode`,
view.py lines 266-289)

`toggle_orient_mode` sets `orient_normal = (1,0,0)`, replaces it with the
displacement of the two selected atoms (two selected) or a cross product
(three selected), and then unconditionally executes
`self.orient_normal /= sum(self.orient_normal ** 2) ** 0.5` (line 289). -/

/-- 3-vectors over exact rationals. -/
abbrev V3 := ℚ × ℚ × ℚ

def sub3 (u v : V3) : V3 :=
  (u.1 - v.1, u.2.1 - v.2.1, u.2.2 - v.2.2)

def cross3 (u v : V3) : V3 :=
  (u.2.1 * v.2.2 - u.2.2 * v.2.1,
   u.2.2 * v.1 - u.1 * v.2.2,
   u.1 * v.2.1 - u.2.1 * v.1)

def dot3 (u v : V3) : ℚ :=
  u.1 * v.1 + u.2.1 * v.2.1 + u.2.2 * v.2.2

/-- Positions of the atoms flagged in `atoms_to_rotate_0`
(view.py lines 279-282). -/
def selPositions (R : List V3) (sel : List Bool) : List V3 :=
  ((sel.zip R).filter (fun x => x.1)).map (fun x => x.2)

/-- The vector `self.orient_normal` before normalisation (lines 278-288):
`(1,0,0)` by default, the displacement `p₀ − p₁` when exactly two atoms are
selected, and the cross product `(p₁−p₀) × (p₁−p₂)` when exactly three. -/
def orientNormalRaw (selPos : List V3) : V3 :=
  match selPos with
  | [p0, p1] => sub3 p0 p1
  | [p0, p1, p2] => cross3 (sub3 p1 p0) (sub3 p1 p2)
  | _ => (1, 0, 0)

/-- Line 289 divides `orient_normal` by `(Σ orient_normal²) ** 0.5` with no
guard; that division is by zero exactly when the squared norm vanishes. -/
def orientDividesByZero (R : List V3) (sel : List Bool) : Bool :=
  decide (dot3 (orientNormalRaw (selPositions R sel))
    (orientNormalRaw (selPositions R sel)) = 0)

/-- **C8** (code bug).  With two selected atoms at identical positions the
derived displacement vector is zero-length, and `toggle_orient_mode`
normalises it anyway: line 289 divides by `0 ** 0.5 = 0`.  There is no guard
treating the near-zero vector as undefined orientation — the prior
orientation `(1,0,0)` has already been overwritten by the zero vector, which
the division then turns into NaNs rather than leaving the prior orientation
unchanged. -/
theorem c8_orient_divides_by_zero :
    orientDividesByZero [(0, 0, 0), (0, 0, 0)] [true, true] = true ∧
    orientNormalRaw (selPositions [(0, 0, 0), (0, 0, 0)] [true, true]) ≠
      (1, 0, 0) := by
  constructor
  · norm_num [orientDividesByZero, selPositions, orientNormalRaw, sub3, dot3,
      List.zip, List.zipWith, List.filter]
  · norm_num [selPositions, orientNormalRaw, sub3,
      List.zip, List.zipWith, List.filter, Prod.ext_iff]

/-! ## Vector arrows (`View.arrow`, view.py lines 496-512)

`arrow` computes `length = min(|vec_xy|, 0.3 * scale)`, draws the shaft from
`begin.round()` to `end.round()` — the full, uncapped segment — and then two
arrowhead lines from `end + length·(cos, sin)(angle ∓ 0.3)` to `end`, with
`angle = atan2(dy, dx) + π` the reverse shaft direction. -/

/-- One drawn line segment (integer pixel endpoints). -/
structure Seg where
  x1 : ℤ
  y1 : ℤ
  x2 : ℤ
  y2 : ℤ
deriving DecidableEq, Repr

/-- Arrowhead line length (view.py lines 498-499): the xy-length of the
vector, capped at `0.3 · scale`.  `len0` stands for `sqrt(vx² + vy²)`. -/
def arrowLen (len0 scale : ℚ) : ℚ := min len0 (3 / 10 * scale)

/-- `View.arrow` (lines 496-512) as the list of the three segments it draws:
shaft, then the two arrowhead lines.  `len0` abbreviates `sqrt(vx² + vy²)`
and `(c₁,s₁)`, `(c₂,s₂)` the cosine/sine pairs of `angle − 0.3` and
`angle + 0.3`. -/
def arrowSegs (bx0 by0 ex ey len0 scale c1 s1 c2 s2 : ℚ) : List Seg :=
  let length := arrowLen len0 scale
  [⟨npRound bx0, npRound by0, npRound ex, npRound ey⟩,
   ⟨npRound (ex + length * c1), npRound (ey + length * s1),
     npRound ex, npRound ey⟩,
   ⟨npRound (ex + length * c2), npRound (ey + length * s2),
     npRound ex, npRound ey⟩]

/-- **C9 counterexample.** The shaft of the arrow is drawn at its full
length, not capped at `0.3 × scale`: for begin `(0,0)`, end `(1,0)`,
scale 1 (so `len0 = sqrt(1² + 0²) = 1`, and unit cosine/sine pairs
`(3/5, 4/5)`, `(4/5, 3/5)`), the drawn shaft has squared length
`1 > (0.3 · 1)²`. -/
theorem c9_counterexample :
    (arrowSegs 0 0 1 0 1 1 (3 / 5) (4 / 5) (4 / 5) (3 / 5)).headD
        ⟨0, 0, 0, 0⟩ = ⟨0, 0, 1, 0⟩ ∧
    ¬ (((1 : ℚ) - 0) ^ 2 + ((0 : ℚ) - 0) ^ 2 ≤ (3 / 10 * 1) ^ 2) := by
  have h0 : npRound 0 = 0 := by
    norm_num [npRound, Int.fract]
  have h1 : npRound 1 = 1 := by
    norm_num [npRound, Int.fract]
  constructor
  · show Seg.mk (npRound 0) (npRound 0) (npRound 1) (npRound 0) = ⟨0, 0, 1, 0⟩
    rw [h0, h1]
  · norm_num

/-- **C9 (amended).** For every rendered velocity/force vector, the shaft is
drawn at its full projected length (its endpoints are exactly the rounded
`begin` and `end`), while each of the two arrowhead lines has pre-rounding
length `min(len0, 0.3·scale)`, capped at `0.3 × scale`; the arrowhead lines
leave `end` at ±0.3 rad from the reverse of the shaft direction (the
`(cᵢ, sᵢ)` are the cosine/sine pairs of that reverse direction ∓ 0.3 rad). -/
theorem c9_arrow_cap (bx0 by0 ex ey len0 scale c1 s1 c2 s2 : ℚ)
    (hlen : 0 ≤ len0) (hscale : 0 ≤ scale)
    (hc1 : c1 ^ 2 + s1 ^ 2 = 1) (hc2 : c2 ^ 2 + s2 ^ 2 = 1) :
    (arrowSegs bx0 by0 ex ey len0 scale c1 s1 c2 s2).headD ⟨0, 0, 0, 0⟩ =
        ⟨npRound bx0, npRound by0, npRound ex, npRound ey⟩ ∧
    (arrowLen len0 scale * c1) ^ 2 + (arrowLen len0 scale * s1) ^ 2 ≤
        (3 / 10 * scale) ^ 2 ∧
    (arrowLen len0 scale * c2) ^ 2 + (arrowLen len0 scale * s2) ^ 2 ≤
        (3 / 10 * scale) ^ 2 := by
  have hL0 : 0 ≤ arrowLen len0 scale :=
    le_min hlen (by positivity)
  have hLle : arrowLen len0 scale ≤ 3 / 10 * scale := min_le_right _ _
  have hsq : arrowLen len0 scale ^ 2 ≤ (3 / 10 * scale) ^ 2 :=
    pow_le_pow_left₀ hL0 hLle 2
  refine ⟨rfl, ?_, ?_⟩
  · calc (arrowLen len0 scale * c1) ^ 2 + (arrowLen len0 scale * s1) ^ 2
        = arrowLen len0 scale ^ 2 * (c1 ^ 2 + s1 ^ 2) := by ring
      _ = arrowLen len0 scale ^ 2 := by rw [hc1, mul_one]
      _ ≤ (3 / 10 * scale) ^ 2 := hsq
  · calc (arrowLen len0 scale * c2) ^ 2 + (arrowLen len0 scale * s2) ^ 2
        = arrowLen len0 scale ^ 2 * (c2 ^ 2 + s2 ^ 2) := by ring
      _ = arrowLen len0 scale ^ 2 := by rw [hc2, mul_one]
      _ ≤ (3 / 10 * scale) ^ 2 := hsq

/-- Witness for C9 at a concrete arrow. -/
theorem c9_witness :
    (arrowSegs 0 0 1 0 1 1 (3 / 5) (4 / 5) (4 / 5) (3 / 5)).headD
        ⟨0, 0, 0, 0⟩ = ⟨npRound 0, npRound 0, npRound 1, npRound 0⟩ ∧
    (arrowLen 1 1 * (3 / 5)) ^ 2 + (arrowLen 1 1 * (4 / 5)) ^ 2 ≤
        (3 / 10 * 1) ^ 2 ∧
    (arrowLen 1 1 * (4 / 5)) ^ 2 + (arrowLen 1 1 * (3 / 5)) ^ 2 ≤
        (3 / 10 * 1) ^ 2 :=
  c9_arrow_cap 0 0 1 0 1 1 (3 / 5) (4 / 5) (4 / 5) (3 / 5)
    zero_le_one zero_le_one (by norm_num) (by norm_num)

/-! ## Rotation drags (`View.move`, view.py lines 677-714)

A rotation drag normalises the pointer delta: `a = x − x₀`, `b = y₀ − y`,
`t = sqrt(a² + b²)`, then `a /= t`, `b /= t` when `t > 0` and `(a, b) =
(1, 0)` otherwise (lines 693-701); takes `c = cos(0.01·t)` and
`s = −sin(0.01·t)` (so `c² + s² = 1`), builds the Rodrigues rotation matrix
of lines 704-706, and sets `axes = axes0 · rotation` (line 707). -/

/-- The rotation matrix of view.py lines 704-706. -/
def rotationMatrix (a b c s : ℚ) : Matrix (Fin 3) (Fin 3) ℚ :=
  !![c * a * a + b * b, (c - 1) * b * a, s * a;
     (c - 1) * a * b, c * b * b + a * a, s * b;
     -(s * a), -(s * b), c]

/-- Lines 693-701: the drag direction, normalised when `t > 0`, with the
degenerate-drag fallback `(1, 0)`. -/
def dragDir (dx dy t : ℚ) : ℚ × ℚ :=
  if 0 < t then (dx / t, dy / t) else (1, 0)

/-- Line 707: the camera axes updated by a rotation drag. -/
def moveAxes (axes0 : Matrix (Fin 3) (Fin 3) ℚ) (dx dy t c s : ℚ) :
    Matrix (Fin 3) (Fin 3) ℚ :=
  axes0 * rotationMatrix (dragDir dx dy t).1 (dragDir dx dy t).2 c s

theorem rotationMatrix_orthonormal (a b c s : ℚ)
    (hab : a ^ 2 + b ^ 2 = 1) (hcs : c ^ 2 + s ^ 2 = 1) :
    (rotationMatrix a b c s)ᵀ * rotationMatrix a b c s = 1 := by
  have hT : (rotationMatrix a b c s)ᵀ =
      !![c * a * a + b * b, (c - 1) * a * b, -(s * a);
         (c - 1) * b * a, c * b * b + a * a, -(s * b);
         s * a, s * b, c] := by
    ext i j
    fin_cases i <;> fin_cases j <;> rfl
  rw [hT, rotationMatrix, Matrix.mul_fin_three, Matrix.one_fin_three,
    Equiv.apply_eq_iff_eq]
  refine Matrix.vec3_eq (Matrix.vec3_eq ?_ ?_ ?_) (Matrix.vec3_eq ?_ ?_ ?_)
    (Matrix.vec3_eq ?_ ?_ ?_)
  · linear_combination (c ^ 2 * a ^ 2 + b ^ 2 + 1) * hab + a ^ 2 * hcs
  · linear_combination (c ^ 2 - 1) * a * b * hab + a * b * hcs
  · linear_combination s * a * c * hab
  · linear_combination (c ^ 2 - 1) * a * b * hab + a * b * hcs
  · linear_combination (c ^ 2 * b ^ 2 + a ^ 2 + 1) * hab + b ^ 2 * hcs
  · linear_combination s * b * c * hab
  · linear_combination s * a * c * hab
  · linear_combination s * b * c * hab
  · linear_combination s ^ 2 * hab + hcs

/-- **C5.** For every pointer-move event handled as a rotation drag: if the
camera axis matrix was orthonormal at the press snapshot, the updated axis
matrix `axes0 · rotation` is again orthonormal (columns unit length and
mutually orthogonal — exact over ℚ, "within floating tolerance" in the float
code).  `t` is the drag distance, `t² = dx² + dy²`, and `(c, s)` stands for
`(cos(0.01·t), −sin(0.01·t))`, so `c² + s² = 1`. -/
theorem c5_rotation_preserves_orthonormal (axes0 : Matrix (Fin 3) (Fin 3) ℚ)
    (dx dy t c s : ℚ) (ht : t ^ 2 = dx ^ 2 + dy ^ 2)
    (hcs : c ^ 2 + s ^ 2 = 1) (h0 : axes0ᵀ * axes0 = 1) :
    (moveAxes axes0 dx dy t c s)ᵀ * moveAxes axes0 dx dy t c s = 1 := by
  have hab : (dragDir dx dy t).1 ^ 2 + (dragDir dx dy t).2 ^ 2 = 1 := by
    by_cases h : 0 < t
    · have htne : t ≠ 0 := ne_of_gt h
      simp only [dragDir, if_pos h]
      field_simp
      linarith [ht]
    · simp [dragDir, h]
  have hR := rotationMatrix_orthonormal _ _ _ _ hab hcs
  show (axes0 * rotationMatrix _ _ c s)ᵀ * (axes0 * rotationMatrix _ _ c s) = 1
  rw [Matrix.transpose_mul, Matrix.mul_assoc,
    ← Matrix.mul_assoc axes0ᵀ axes0 _, h0, Matrix.one_mul]
  exact hR

/-- Witness for C5: identity camera, drag delta (3, 4) of length 5, zero
rotation angle. -/
theorem c5_witness :
    (moveAxes 1 3 4 5 1 0)ᵀ * moveAxes 1 3 4 5 1 0 = 1 :=
  c5_rotation_preserves_orthonormal 1 3 4 5 1 0 (by norm_num) (by norm_num)
    (by simp)

/-! ## Mouse release (`View.press`/`View.release`, view.py lines 615-675)

`release` dispatches on the button: scroll buttons 4/5 delegate to the
scroll handler, any other non-primary button returns immediately, and a
primary release either performs point (tap) selection when it comes within
200 ms of the press, or box selection otherwise, followed in both cases by
the ordered-selection consistency fix of lines 665-668. -/

/-- Event modifier tag. -/
inductive Modifier where
  | nomod
  | ctrl
  | shift
deriving DecidableEq, Repr

/-- A pointer event as delivered to `View.release`. -/
structure PEvent where
  button : ℕ
  x : ℚ
  y : ℚ
  time : ℚ
  modifier : Modifier
deriving DecidableEq, Repr

/-- The state read and written by `View.release`: the trajectory model's
selection flags and ordered-selection list, the projected atom screen
positions `self.P`, the draw order `self.indices`, camera state, and the
press snapshot `self.xy` / `self.t0` recorded by `View.press`. -/
structure ViewState where
  natoms : ℕ
  selected : List Bool
  selectedOrdered : List ℕ
  P : List (ℚ × ℚ)
  indices : List ℕ
  scale : ℚ
  r : List ℚ
  center : V3
  xy : ℚ × ℚ
  t0 : ℚ
deriving DecidableEq, Repr

/-- `hit[a]` (lines 627-628): the squared pointer distance to atom `a`'s
screen position is strictly below `(scale · r[a])²`. -/
def hitAt (st : ViewState) (a : ℕ) : Bool :=
  decide (((st.P.getD a (0, 0)).1 - st.xy.1) ^ 2 +
      ((st.P.getD a (0, 0)).2 - st.xy.2) ^ 2 <
    (st.scale * st.r.getD a 0) ^ 2)

/-- The loop of lines 629-644: scan `self.indices` in reverse (front-most
first) for the first atom index that is hit. -/
def frontHit (st : ViewState) : Option ℕ :=
  st.indices.reverse.find? (fun a => decide (a < st.natoms) && hitAt st a)

/-- Point (tap) selection, lines 626-648.  A hit with the ctrl modifier
toggles the atom's flag and updates the ordered list (append on select,
pop-if-last-match on deselect, else clear); a hit without modifier replaces
the whole selection by that atom; no hit clears the selection (the `else`
clause of the `for` loop). -/
def tapSelect (st : ViewState) (ev : PEvent) : ViewState :=
  match frontHit st with
  | some a =>
    if ev.modifier = Modifier.ctrl then
      let sel := st.selected.set a (!st.selected.getD a false)
      let ord :=
        if sel.getD a false then st.selectedOrdered ++ [a]
        else if 0 < st.selectedOrdered.length then
          if st.selectedOrdered.getLast? = some a then
            st.selectedOrdered.dropLast
          else []
        else st.selectedOrdered
      { st with selected := sel, selectedOrdered := ord }
    else
      { st with selected := (st.selected.map fun _ => false).set a true,
                selectedOrdered := [a] }
  | none =>
      { st with selected := st.selected.map fun _ => false,
                selectedOrdered := [] }

/-- Box selection, lines 649-663: atoms whose screen position lies strictly
inside the rectangle spanned by the press and release points are selected
(union with the ctrl modifier, replacement otherwise); the ordered list is
appended to for a single newly-hit atom, cleared for several. -/
def boxSelect (st : ViewState) (ev : PEvent) : ViewState :=
  let c1 := (min ev.x st.xy.1, min ev.y st.xy.2)
  let c2 := (max ev.x st.xy.1, max ev.y st.xy.2)
  let inBox : ℕ → Bool := fun a =>
    decide (c1.1 < (st.P.getD a (0, 0)).1 ∧ (st.P.getD a (0, 0)).1 < c2.1 ∧
      c1.2 < (st.P.getD a (0, 0)).2 ∧ (st.P.getD a (0, 0)).2 < c2.2)
  let hits := (List.range st.natoms).filter inBox
  let sel0 := if ev.modifier ≠ Modifier.ctrl
    then st.selected.map fun _ => false else st.selected
  let sel := hits.foldl (fun l a => l.set a true) sel0
  let ord :=
    match hits with
    | [] => st.selectedOrdered
    | [a] => if a ∈ st.selectedOrdered then st.selectedOrdered
             else st.selectedOrdered ++ [a]
    | _ => []
  { st with selected := sel, selectedOrdered := ord }

/-- Lines 665-668: if the ordered list's length disagrees with the number of
selected atoms, reset the ordered list to empty. -/
def fixOrdered (st : ViewState) : ViewState :=
  if st.selected.count true = st.selectedOrdered.length then st
  else { st with selectedOrdered := [] }

/-- Modelled from the spec: the scroll handler (`gui.scroll`, reached for
buttons 4/5) is not under `src/`; per the spec, scrolling adjusts the scale
(zoom) directly, bypassing the press/move/release cycle. -/
def scrollEvent (st : ViewState) (ev : PEvent) : ViewState :=
  { st with scale := st.scale * (if ev.button = 4 then 11 / 10 else 10 / 11) }

/-- `View.release` (lines 615-668). -/
def release (st : ViewState) (ev : PEvent) : ViewState :=
  if ev.button = 4 ∨ ev.button = 5 then scrollEvent st ev
  else if ev.button ≠ 1 then st
  else fixOrdered
    (if ev.time < st.t0 + 200 then tapSelect st ev else boxSelect st ev)

/-- **C10.** A release event whose button is neither the primary button (1)
nor a scroll button (4 or 5) — for example the middle button — is a no-op:
it returns immediately, leaving the entire state (selection flags, ordered
list, camera axes/scale/center, press snapshot) unchanged, and triggers no
redraw. -/
theorem c10_other_button_noop (st : ViewState) (ev : PEvent)
    (h1 : ev.button ≠ 1) (h4 : ev.button ≠ 4) (h5 : ev.button ≠ 5) :
    release st ev = st := by
  simp [release, h1, h4, h5]

/-- Witness for C10: a middle-button (2) release on a one-atom state. -/
theorem c10_witness :
    release ⟨1, [false], [], [(0, 0)], [0], 1, [1], (0, 0, 0), (0, 0), 0⟩
        ⟨2, 0, 0, 100, Modifier.nomod⟩ =
      ⟨1, [false], [], [(0, 0)], [0], 1, [1], (0, 0, 0), (0, 0), 0⟩ :=
  c10_other_button_noop _ _ (by decide) (by decide) (by decide)

/-- **C4.** After every primary-button release (tap or box selection),
either the ordered-selection list's length equals the number of atoms whose
selected flag is true, or the ordered list has been reset to empty; the
disagreement is absorbed locally by `fixOrdered` (release is a total
function on states) and never propagated as an error. -/
theorem c4_ordered_consistent (st : ViewState) (ev : PEvent)
    (hb : ev.button = 1) :
    (release st ev).selected.count true =
        (release st ev).selectedOrdered.length ∨
    (release st ev).selectedOrdered = [] := by
  have h45 : ¬(ev.button = 4 ∨ ev.button = 5) := by
    rw [hb]; decide
  have h1 : ¬ev.button ≠ 1 := by
    rw [hb]; decide
  rw [release, if_neg h45, if_neg h1]
  set st' := if ev.time < st.t0 + 200 then tapSelect st ev else boxSelect st ev
  by_cases h : st'.selected.count true = st'.selectedOrdered.length
  · left
    rw [fixOrdered, if_pos h]
    exact h
  · right
    rw [fixOrdered, if_neg h]

/-- Witness for C4: a no-modifier tap on a one-atom structure. -/
theorem c4_witness :
    (release ⟨1, [false], [], [(0, 0)], [0], 1, [1], (0, 0, 0), (0, 0), 0⟩
          ⟨1, 0, 0, 100, Modifier.nomod⟩).selected.count true =
        (release ⟨1, [false], [], [(0, 0)], [0], 1, [1], (0, 0, 0), (0, 0), 0⟩
          ⟨1, 0, 0, 100, Modifier.nomod⟩).selectedOrdered.length ∨
    (release ⟨1, [false], [], [(0, 0)], [0], 1, [1], (0, 0, 0), (0, 0), 0⟩
        ⟨1, 0, 0, 100, Modifier.nomod⟩).selectedOrdered = [] :=
  c4_ordered_consistent _ _ rfl

theorem count_true_map_false (l : List Bool) :
    ((l.map fun _ => false).count true) = 0 := by
  induction l with
  | nil => rfl
  | cons a l ih => simpa [List.count_cons] using ih

theorem getD_map_false (l : List Bool) (k : ℕ) :
    (l.map fun _ => false).getD k false = false := by
  induction l generalizing k with
  | nil => rfl
  | cons a l ih =>
    cases k with
    | zero => rfl
    | succ n => simp [ih n]

theorem set_false_map_false (l : List Bool) (k : ℕ) :
    (l.map fun _ => false).set k false = l.map fun _ => false := by
  induction l generalizing k with
  | nil => rfl
  | cons a l ih =>
    cases k with
    | zero => rfl
    | succ n => simp [ih n]

theorem getD_set_self (l : List Bool) (k : ℕ) (x : Bool) (h : k < l.length) :
    (l.set k x).getD k false = x := by
  rw [List.getD_eq_getElem?_getD, List.getElem?_set_self h]
  rfl

theorem count_set_true_map_false (l : List Bool) (k : ℕ)
    (h : k < l.length) :
    ((l.map fun _ => false).set k true).count true = 1 := by
  have hlen : k < ((l.map fun _ => false) : List Bool).length := by simpa using h
  rw [List.count_set true true _ k hlen]
  simp [List.count_replicate]

theorem fixOrdered_eq_self (st : ViewState)
    (h : st.selected.count true = st.selectedOrdered.length) :
    fixOrdered st = st := by
  rw [fixOrdered, if_pos h]

/-- A no-modifier tap that hits atom `k` replaces the selection with `{k}`
and the ordered list with `[k]` (view.py lines 640-643, then 665-668). -/
theorem release_tap_nomod (st : ViewState) (ev : PEvent) (k : ℕ)
    (hb : ev.button = 1) (hm : ev.modifier = Modifier.nomod)
    (ht : ev.time < st.t0 + 200) (hhit : frontHit st = some k)
    (hcnt : ((st.selected.map fun _ => false).set k true).count true = 1) :
    release st ev = { st with
      selected := (st.selected.map fun _ => false).set k true,
      selectedOrdered := [k] } := by
  rw [release, hb, if_neg (by decide), if_neg (by decide), if_pos ht]
  have htap : tapSelect st ev = { st with
      selected := (st.selected.map fun _ => false).set k true,
      selectedOrdered := [k] } := by
    simp [tapSelect, hhit, hm]
  rw [htap]
  exact fixOrdered_eq_self _ hcnt

/-- A ctrl tap that hits the already-selected atom `k` while the ordered
list is `[k]` toggles `k` off and pops it from the ordered list (view.py
lines 631-639, then 665-668); `hcnt` records that no other atom remains
selected afterwards. -/
theorem release_tap_ctrl_deselect (st : ViewState) (ev : PEvent) (k : ℕ)
    (hb : ev.button = 1) (hm : ev.modifier = Modifier.ctrl)
    (ht : ev.time < st.t0 + 200) (hhit : frontHit st = some k)
    (hget : st.selected.getD k false = true)
    (hord : st.selectedOrdered = [k])
    (hcnt : (st.selected.set k false).count true = 0) :
    release st ev = { st with
      selected := st.selected.set k false,
      selectedOrdered := [] } := by
  have hk : k < st.selected.length := by
    rcases Nat.lt_or_ge k st.selected.length with h | h
    · exact h
    · rw [List.getD_eq_getElem?_getD, List.getElem?_eq_none h] at hget
      simp at hget
  rw [release, hb, if_neg (by decide), if_neg (by decide), if_pos ht]
  have htap : tapSelect st ev = { st with
      selected := st.selected.set k false,
      selectedOrdered := [] } := by
    simp only [tapSelect, hhit, hm, reduceIte, hget, Bool.not_true]
    rw [getD_set_self st.selected k false hk]
    simp [hord]
  rw [htap]
  exact fixOrdered_eq_self _ hcnt

/-- **C3.** On a primary-button release within 200 ms of the press (a tap)
with no modifier, the selection becomes exactly the front-most atom whose
screen circle contains the pointer — or empty if no atom's circle contains
the pointer (`frontHit st = none`, the `else` clause of the loop, lines
645-647); on a hit `k` the ordered list becomes `[k]`, and a subsequent
ctrl-tap on that same atom toggles it off, so after selecting `{k}` the
ctrl-tap yields the empty selection and an empty ordered list. -/
theorem c3_tap_selection_and_ctrl_toggle (st : ViewState) (ev1 ev2 : PEvent)
    (hlen : st.selected.length = st.natoms)
    (hb1 : ev1.button = 1) (hm1 : ev1.modifier = Modifier.nomod)
    (ht1 : ev1.time < st.t0 + 200)
    (hb2 : ev2.button = 1) (hm2 : ev2.modifier = Modifier.ctrl)
    (ht2 : ev2.time < st.t0 + 200) :
    (frontHit st = none →
      (release st ev1).selected = (st.selected.map fun _ => false) ∧
      (release st ev1).selectedOrdered = []) ∧
    (∀ k : ℕ, frontHit st = some k →
      (release st ev1).selected =
          (st.selected.map fun _ => false).set k true ∧
      (release st ev1).selectedOrdered = [k] ∧
      (release (release st ev1) ev2).selected =
          (st.selected.map fun _ => false) ∧
      (release (release st ev1) ev2).selectedOrdered = []) := by
  constructor
  · -- no atom's circle contains the pointer: the tap clears the selection
    intro hnone
    have hst1 : release st ev1 = { st with
        selected := st.selected.map fun _ => false,
        selectedOrdered := [] } := by
      rw [release, hb1, if_neg (by decide), if_neg (by decide), if_pos ht1]
      have htap : tapSelect st ev1 = { st with
          selected := st.selected.map fun _ => false,
          selectedOrdered := [] } := by
        simp [tapSelect, hnone]
      rw [htap]
      exact fixOrdered_eq_self _ (count_true_map_false st.selected)
    exact ⟨by rw [hst1], by rw [hst1]⟩
  · -- front-most hit k: tap selects {k}, then the ctrl-tap deselects it
    intro k hhit
    have hk : k < st.selected.length := by
      have h := List.find?_some hhit
      simp only [Bool.and_eq_true, decide_eq_true_eq] at h
      exact hlen ▸ h.1
    have hklen' : k < ((st.selected.map fun _ => false) : List Bool).length := by
      simpa using hk
    have hcount1 :
        ((st.selected.map fun _ => false).set k true).count true = 1 :=
      count_set_true_map_false st.selected k hk
    have hst1 : release st ev1 = { st with
        selected := (st.selected.map fun _ => false).set k true,
        selectedOrdered := [k] } :=
      release_tap_nomod st ev1 k hb1 hm1 ht1 hhit hcount1
    have hset2 : ((st.selected.map fun _ => false).set k true).set k false =
        st.selected.map fun _ => false := by
      rw [List.set_set]
      exact set_false_map_false st.selected k
    have hst2 : release (release st ev1) ev2 = { st with
        selected := st.selected.map fun _ => false,
        selectedOrdered := [] } := by
      rw [hst1]
      have h2 := release_tap_ctrl_deselect (ViewState.mk st.natoms
        ((st.selected.map fun _ => false).set k true) [k] st.P st.indices
        st.scale st.r st.center st.xy st.t0) ev2 k hb2 hm2 ht2 hhit
        (getD_set_self _ k true hklen') rfl
        (show (((st.selected.map fun _ => false).set k true).set k
            false).count true = 0 from by
          rw [hset2]; exact count_true_map_false st.selected)
      rw [h2]
      show ViewState.mk st.natoms
        (((st.selected.map fun _ => false).set k true).set k false) []
        st.P st.indices st.scale st.r st.center st.xy st.t0 = _
      rw [hset2]
    refine ⟨?_, ?_, ?_, ?_⟩
    · rw [hst1]
    · rw [hst1]
    · rw [hst2]
    · rw [hst2]

/-- Witness for C3, applying the theorem at two concrete one-atom states:
one whose atom (at screen position (10, 10)) misses the pointer at the
origin, so the tap clears the previously selected atom, and one whose atom
(at the origin, radius 1) is hit, so a 100 ms no-modifier tap selects it
and a 150 ms ctrl tap deselects it again. -/
theorem c3_witness :
    (release ⟨1, [true], [0], [(10, 10)], [0], 1, [1], (0, 0, 0), (0, 0), 0⟩
          ⟨1, 0, 0, 100, Modifier.nomod⟩).selected =
        ([true].map fun _ => false) ∧
    (release ⟨1, [true], [0], [(10, 10)], [0], 1, [1], (0, 0, 0), (0, 0), 0⟩
          ⟨1, 0, 0, 100, Modifier.nomod⟩).selectedOrdered = [] ∧
    (release ⟨1, [false], [], [(0, 0)], [0], 1, [1], (0, 0, 0), (0, 0), 0⟩
          ⟨1, 0, 0, 100, Modifier.nomod⟩).selected =
        (([false].map fun _ => false).set 0 true) ∧
    (release ⟨1, [false], [], [(0, 0)], [0], 1, [1], (0, 0, 0), (0, 0), 0⟩
          ⟨1, 0, 0, 100, Modifier.nomod⟩).selectedOrdered = [0] ∧
    (release
          (release ⟨1, [false], [], [(0, 0)], [0], 1, [1], (0, 0, 0),
              (0, 0), 0⟩ ⟨1, 0, 0, 100, Modifier.nomod⟩)
          ⟨1, 0, 0, 150, Modifier.ctrl⟩).selected =
        ([false].map fun _ => false) ∧
    (release
        (release ⟨1, [false], [], [(0, 0)], [0], 1, [1], (0, 0, 0),
            (0, 0), 0⟩ ⟨1, 0, 0, 100, Modifier.nomod⟩)
        ⟨1, 0, 0, 150, Modifier.ctrl⟩).selectedOrdered = [] :=
  ⟨((c3_tap_selection_and_ctrl_toggle
      ⟨1, [true], [0], [(10, 10)], [0], 1, [1], (0, 0, 0), (0, 0), 0⟩
      ⟨1, 0, 0, 100, Modifier.nomod⟩ ⟨1, 0, 0, 150, Modifier.ctrl⟩
      rfl rfl rfl (by norm_num) rfl rfl (by norm_num)).1
    (by norm_num [frontHit, hitAt])).1,
   ((c3_tap_selection_and_ctrl_toggle
      ⟨1, [true], [0], [(10, 10)], [0], 1, [1], (0, 0, 0), (0, 0), 0⟩
      ⟨1, 0, 0, 100, Modifier.nomod⟩ ⟨1, 0, 0, 150, Modifier.ctrl⟩
      rfl rfl rfl (by norm_num) rfl rfl (by norm_num)).1
    (by norm_num [frontHit, hitAt])).2,
   ((c3_tap_selection_and_ctrl_toggle
      ⟨1, [false], [], [(0, 0)], [0], 1, [1], (0, 0, 0), (0, 0), 0⟩
      ⟨1, 0, 0, 100, Modifier.nomod⟩ ⟨1, 0, 0, 150, Modifier.ctrl⟩
      rfl rfl rfl (by norm_num) rfl rfl (by norm_num)).2 0
    (by norm_num [frontHit, hitAt])).1,
   ((c3_tap_selection_and_ctrl_toggle
      ⟨1, [false], [], [(0, 0)], [0], 1, [1], (0, 0, 0), (0, 0), 0⟩
      ⟨1, 0, 0, 100, Modifier.nomod⟩ ⟨1, 0, 0, 150, Modifier.ctrl⟩
      rfl rfl rfl (by norm_num) rfl rfl (by norm_num)).2 0
    (by norm_num [frontHit, hitAt])).2.1,
   ((c3_tap_selection_and_ctrl_toggle
      ⟨1, [false], [], [(0, 0)], [0], 1, [1], (0, 0, 0), (0, 0), 0⟩
      ⟨1, 0, 0, 100, Modifier.nomod⟩ ⟨1, 0, 0, 150, Modifier.ctrl⟩
      rfl rfl rfl (by norm_num) rfl rfl (by norm_num)).2 0
    (by norm_num [frontHit, hitAt])).2.2.1,
   ((c3_tap_selection_and_ctrl_toggle
      ⟨1, [false], [], [(0, 0)], [0], 1, [1], (0, 0, 0), (0, 0), 0⟩
      ⟨1, 0, 0, 100, Modifier.nomod⟩ ⟨1, 0, 0, 150, Modifier.ctrl⟩
      rfl rfl rfl (by norm_num) rfl rfl (by norm_num)).2 0
    (by norm_num [frontHit, hitAt])).2.2.2⟩

end AseView
